import Mathlib

/-!
Verification of the mcp-proxy-server runtime core: a shallow embedding of
the configuration source (`src/config.ts`), the backend registry
(`src/data.ts`), the request aggregator/router (`src/request.ts`), the
connection logic (`src/clients.ts`) and the retry utility (`src/utils.ts`),
together with theorems settling the specification's claims about them.

Conventions of the embedding:
* JS `Map` objects become insertion-ordered association lists
  (`Map.set` updates in place or appends, `Map.delete` removes).
* Thrown errors become `Except` errors; an error value records which
  error class was constructed (`Error`, `AuthenticationError`, ...).
* `async` scheduling is flattened: a `Promise.allSettled` over an array
  becomes a left-to-right traversal collecting each element's
  `Except` outcome, which is faithful because the source inspects the
  settled outcomes in array order.
* Object identity (`===` on clients) is modelled by a numeric `id` field.
-/

namespace MCPProxy

/-- Parsed JSON values with object fields kept in document order.
`JSON.stringify` is injective on values obtained from `JSON.parse`
(field order preserved, no `undefined`), so the source's
stringify-comparison equality coincides with structural equality on
this representation. -/
inductive Json where
  | null
  | bool (b : Bool)
  | num (n : Int)
  | str (s : String)
  | arr (xs : List Json)
  | obj (fs : List (String × Json))
deriving Repr, Inhabited

/-- Structural equality of JSON documents, order-sensitive in arrays and
object fields; this is exactly what comparing `JSON.stringify` outputs
tests for parsed documents. -/
def Json.beq : Json → Json → Bool
  | .null, .null => true
  | .bool a, .bool b => a == b
  | .num a, .num b => a == b
  | .str a, .str b => a == b
  | .arr xs, .arr ys => goList xs ys
  | .obj fs, .obj gs => goFields fs gs
  | _, _ => false
where
  goList : List Json → List Json → Bool
    | [], [] => true
    | x :: xs, y :: ys => Json.beq x y && goList xs ys
    | _, _ => false
  goFields : List (String × Json) → List (String × Json) → Bool
    | [], [] => true
    | (k, v) :: fs, (k2, v2) :: gs => k == k2 && Json.beq v v2 && goFields fs gs
    | _, _ => false

/-- JS property access `value[key]`: a field lookup on objects,
`undefined` (here `none`) on every non-object value. -/
def Json.getField : Json → String → Option Json
  | .obj fs, key => go fs key
  | _, _ => none
where
  go : List (String × Json) → String → Option Json
    | [], _ => none
    | (k, v) :: fs, key => if k == key then some v else go fs key

/-- JS truthiness of a JSON value. -/
def Json.truthy : Json → Bool
  | .null => false
  | .bool b => b
  | .num n => n != 0
  | .str s => s != ""
  | .arr _ => true
  | .obj _ => true

/-- JS truthiness with `undefined` mapped to false. -/
def jsTruthy : Option Json → Bool
  | none => false
  | some v => v.truthy

/-- Insertion-ordered association list, mirroring a JS `Map`:
`set` on a present key updates the entry in place, otherwise appends. -/
def assocSet {β : Type} : List (String × β) → String → β → List (String × β)
  | [], k, v => [(k, v)]
  | (k', v') :: rest, k, v =>
    if k' = k then (k, v) :: rest else (k', v') :: assocSet rest k v

/-- `Map.get`. -/
def assocGet {β : Type} : List (String × β) → String → Option β
  | [], _ => none
  | (k', v') :: rest, k => if k' = k then some v' else assocGet rest k

/-- `Map.delete`. -/
def assocDelete {β : Type} : List (String × β) → String → List (String × β)
  | [], _ => []
  | (k', v') :: rest, k =>
    if k' = k then rest else (k', v') :: assocDelete rest k

/-! ## Error taxonomy (`src/errors.ts`)

The repository declares the classes `AuthenticationError`,
`ConfigurationError`, `ClientRequestError` and `ProxyError`, all
extending the built-in `Error`; routing misses in `src/data.ts` throw
the built-in `Error` directly.  A backend call rejects with either an
SDK `McpError` (carrying a numeric code) or some other error. -/

/-- An error raised by a backend request, as seen by `clientRequest`. -/
inductive BackendError where
  | mcpError (code : Int) (message : String)
  | otherError (message : String)
deriving Repr, DecidableEq

/-- `ErrorCode.MethodNotFound` from the protocol SDK. -/
def methodNotFoundCode : Int := -32601

/-- `ErrorCode.RequestTimeout` from the protocol SDK. -/
def requestTimeoutCode : Int := -32001

def BackendError.message : BackendError → String
  | .mcpError _ m => m
  | .otherError m => m

/-- The error classes thrown by the proxy's own code: the plain built-in
`Error` plus the four classes declared in `src/errors.ts`. -/
inductive JsError where
  | genericError (message : String)
  | authenticationError (message : String)
  | configurationError (message : String)
  | clientRequestError (message : String) (cause : BackendError)
  | proxyError (message : String)
deriving Repr, DecidableEq

/-- `error instanceof AuthenticationError`. -/
def JsError.isAuthenticationError : JsError → Bool
  | .authenticationError _ => true
  | _ => false

/-- `error instanceof Error` without being any of the four subclasses of
`src/errors.ts`: the plain generic `Error`. -/
def JsError.isGenericError : JsError → Bool
  | .genericError _ => true
  | _ => false

/-! ## Configuration fetching (`src/config.ts`, `fetchConfiguration`) -/

/-- The `CONFIGURATION_URL` situation at the head of `fetchConfiguration`:
missing (falsy), present but rejected by `new URL(...)`, or present and
well-formed. -/
inductive UrlState where
  | noUrl
  | invalidUrl
  | validUrl
deriving Repr, DecidableEq

/-- What the response body does when `response.json()` is awaited. -/
inductive BodyOutcome where
  | unparsable
  | parsed (j : Json)
deriving Repr

/-- The outcome of one `fetch` of the configuration URL. -/
inductive FetchEvent where
  | abortTimeout
  | networkError
  | response (status : Nat) (statusText : String) (body : BodyOutcome)
deriving Repr

/-- `response.ok`: status in the inclusive range 200–299. -/
def statusOk (status : Nat) : Bool := 200 ≤ status && status < 300

/-- The default empty configuration `{ mcp: { servers: {} } }`. -/
def defaultConfiguration : Json :=
  .obj [("mcp", .obj [("servers", .obj [])])]

/-- `configuration?.mcp?.servers` of the parsed body. -/
def mcpServersField (j : Json) : Option Json :=
  (j.getField "mcp").bind (fun m => m.getField "servers")

/-- `fetchConfiguration` of `src/config.ts`: one GET of the configuration
URL.  Missing/invalid URL, network error, timeout and non-2xx statuses
other than 401 fall back to the default empty configuration; 401 raises
`AuthenticationError`; a body that fails to parse, or parses without a
truthy `mcp.servers` field, raises `ConfigurationError`. -/
def fetchConfiguration (url : UrlState) (ev : FetchEvent) : Except JsError Json :=
  match url with
  | .noUrl => .ok defaultConfiguration
  | .invalidUrl => .ok defaultConfiguration
  | .validUrl =>
    match ev with
    | .abortTimeout => .ok defaultConfiguration
    | .networkError => .ok defaultConfiguration
    | .response status _ body =>
      if !statusOk status then
        if status = 401 then .error (.authenticationError "Authentication failed")
        else .ok defaultConfiguration
      else
        match body with
        | .unparsable => .error (.configurationError "Failed to parse configuration")
        | .parsed j =>
          if !jsTruthy (mcpServersField j) then
            .error (.configurationError "Invalid configuration")
          else .ok j

/-- `areConfigurationsEqual` of `src/config.ts`:
`JSON.stringify(config1) === JSON.stringify(config2)`. -/
def areConfigurationsEqual (config1 config2 : Json) : Bool :=
  Json.beq config1 config2

/-! ## The configuration generator (`generateConfiguration`)

One loop iteration of the `async function*` is a step on its
`currentConfiguration` state, driven by the outcome of
`fetchConfiguration`, producing an observable event: a yield, a silent
discard, a swallowed (logged) error, or — only for
`AuthenticationError` — a rethrow that terminates the generator. -/

/-- What one generator iteration does, as seen by the consumer. -/
inductive GenEvent where
  | yielded (c : Json)
  | noChange
  | swallowedError
deriving Repr

/-- One iteration of the `while (true)` body of `generateConfiguration`:
yield the fetched snapshot when there is no previous one or it differs
under `areConfigurationsEqual`; discard it silently otherwise; rethrow
`AuthenticationError`; log and swallow every other error (initialising
`currentConfiguration` to the default when it was still unset). -/
def genStep (cur : Option Json) (fetched : Except JsError Json) :
    Except JsError (GenEvent × Option Json) :=
  match fetched with
  | .ok newConfiguration =>
    match cur with
    | none => .ok (.yielded newConfiguration, some newConfiguration)
    | some current =>
      if !areConfigurationsEqual current newConfiguration then
        .ok (.yielded newConfiguration, some newConfiguration)
      else
        .ok (.noChange, cur)
  | .error e =>
    if e.isAuthenticationError then .error e
    else
      match cur with
      | none => .ok (.swallowedError, some defaultConfiguration)
      | some _ => .ok (.swallowedError, cur)

/-- Run the generator over a sequence of fetch outcomes, collecting the
events it produces; an `AuthenticationError` terminates the run with
that error, anything else keeps the loop alive. -/
def genRun : Option Json → List (Except JsError Json) →
    Except JsError (List GenEvent × Option Json)
  | cur, [] => .ok ([], cur)
  | cur, fetched :: rest =>
    match genStep cur fetched with
    | .error e => .error e
    | .ok (ev, cur') =>
      match genRun cur' rest with
      | .error e => .error e
      | .ok (evs, curEnd) => .ok (ev :: evs, curEnd)

/-! ## Backend registry (`src/data.ts`)

`clientsStateMap : Map<string, ClientState>` is the primary table;
`proxyMap : Map<string, Map<string, Client>>` is the routing table,
keyed first by the follow-up method and then by the item identifier. -/

/-- A protocol client handle.  `id` models JS object identity (`===`);
`serverInfo` models `client.getServerVersion()` (`none` before the
handshake completes). -/
structure Client where
  id : Nat
  serverInfo : Option (String × String) := none
deriving Repr, DecidableEq

/-- `ClientState` of `src/types.ts`; the transport handle is a number
standing for the transport object, `none` when connection failed. -/
structure ClientState where
  name : String
  client : Client
  transport : Option Nat
deriving Repr, DecidableEq

/-- The routing table `proxyMap`. -/
abbrev ProxyMap := List (String × List (String × Client))

/-- The process-wide registry: both tables of `src/data.ts`. -/
structure Registry where
  states : List (String × ClientState)
  proxy : ProxyMap
deriving Repr, DecidableEq

def emptyRegistry : Registry := ⟨[], []⟩

/-- `setClientState`. -/
def setClientState (r : Registry) (name : String) (state : ClientState) : Registry :=
  { r with states := assocSet r.states name state }

/-- `removeClientState`: deletes from the primary table only. -/
def removeClientState (r : Registry) (name : String) : Registry :=
  { r with states := assocDelete r.states name }

/-- `clearAllClientStates`: empties both tables. -/
def clearAllClientStates (_ : Registry) : Registry := emptyRegistry

/-- `getAllClientStates`. -/
def getAllClientStates (r : Registry) : List ClientState :=
  r.states.map (fun kv => kv.2)

/-- `getAllClients`. -/
def getAllClients (r : Registry) : List Client :=
  r.states.map (fun kv => kv.2.client)

/-- `getKeyFor`: the fixed list-method → result-field table, identity on
unrecognized methods. -/
def getKeyFor (method : String) : String :=
  if method = "prompts/list" then "prompts"
  else if method = "tools/list" then "tools"
  else if method = "resources/list" then "resources"
  else if method = "resources/templates/list" then "resourceTemplates"
  else method

/-- `getReadMethodFor`: the fixed list-method → follow-up-method table,
identity on unrecognized methods. -/
def getReadMethodFor (method : String) : String :=
  if method = "prompts/list" then "prompts/get"
  else if method = "tools/list" then "tools/call"
  else if method = "resources/list" then "resources/read"
  else method

/-- `setClientFor`: upsert into the routing table. -/
def setClientFor (pm : ProxyMap) (method identifier : String) (client : Client) :
    ProxyMap :=
  let methodMap := (assocGet pm method).getD []
  assocSet pm method (assocSet methodMap identifier client)

/-- `getClientFor`: routing lookup; both miss cases throw the plain
built-in `Error` with a message naming the method (and, in the second
case, the identifier). -/
def getClientFor (pm : ProxyMap) (method identifier : String) :
    Except JsError Client :=
  match assocGet pm method with
  | none => .error (.genericError ("No clients registered for method " ++ method))
  | some methodMap =>
    match assocGet methodMap identifier with
    | none =>
      .error (.genericError ("Client not found for " ++ method ++ ":" ++ identifier))
    | some client => .ok client

/-- `removeClientMappings`: drop every routing entry whose client is
(`===`) the given one. -/
def removeClientMappings (pm : ProxyMap) (client : Client) : ProxyMap :=
  pm.map (fun kv => (kv.1, kv.2.filter (fun e => !(e.2 == client))))

def Registry.removeMappings (r : Registry) (client : Client) : Registry :=
  { r with proxy := removeClientMappings r.proxy client }

/-! ## Connecting clients (`src/clients.ts`) and configuration polling

`connectClients` and the body of `startConfigurationPolling` are steps
on a system state combining the generator's `currentConfiguration`, the
registry, a supply of fresh client ids (object identity of newly
constructed clients), and counters of the connect/disconnect side
effects performed.  Which backends connect successfully is a parameter
(`connOk`), as is the fetched data. -/

structure Sys where
  cur : Option Json
  reg : Registry
  nextId : Nat
  connects : Nat
  disconnects : Nat
deriving Repr

/-- `Object.entries(configuration.mcp.servers)`. -/
def getServers (config : Json) : List (String × Json) :=
  match mcpServersField config with
  | some (.obj fs) => fs
  | _ => []

/-- The disconnect-existing prologue shared by `connectClients` and the
polling body: close every registered client's transport
(`client.transport?.close()`, counted once per present transport) and
clear both tables; a no-op when no clients are registered. -/
def disconnectExisting (s : Sys) : Sys :=
  let clients := getAllClientStates s.reg
  if clients.length > 0 then
    { s with
      disconnects :=
        s.disconnects + (clients.filter (fun c => c.transport.isSome)).length
      reg := clearAllClientStates s.reg }
  else s

/-- `connectClients` of `src/clients.ts`: disconnect whatever is
registered, then attempt one connection per configured server
(concurrently in the source; outcomes are independent per server, so
the fan-out is modelled in enumeration order).  A successful connect
registers a fresh client under the server's name; a failed one is
logged and registers nothing, without affecting its siblings. -/
def connectClients (connOk : String → Bool) (config : Json) (s : Sys) : Sys :=
  let s := disconnectExisting s
  let servers := getServers config
  if servers.length = 0 then s
  else
    servers.foldl
      (fun acc nameServer =>
        let name := nameServer.1
        let acc' := { acc with connects := acc.connects + 1 }
        if connOk name then
          let client : Client := { id := acc'.nextId }
          { acc' with
            nextId := acc'.nextId + 1
            reg := setClientState acc'.reg name
              { name := name, client := client, transport := some acc'.nextId } }
        else acc')
      s

/-- The body of the `for await` loop in `startConfigurationPolling`,
run for one yielded configuration: disconnect every existing client,
clear the registry, and reconnect from the new snapshot. -/
def applyConfigChange (connOk : String → Bool) (config : Json) (s : Sys) : Sys :=
  connectClients connOk config (disconnectExisting s)

/-- `startConfigurationPolling` driven by a sequence of fetch outcomes:
each outcome advances the generator; a yielded configuration (unless
the abort signal is set, which breaks the loop) triggers the
reconnect-all body; a generator throw is caught, with
`AuthenticationError` rethrown and everything else logged and
swallowed (ending the iteration). -/
def pollingRun (connOk : String → Bool) (aborted : Bool) :
    Sys → List (Except JsError Json) → Except JsError Sys
  | s, [] => .ok s
  | s, fetched :: rest =>
    match genStep s.cur fetched with
    | .error e => if e.isAuthenticationError then .error e else .ok s
    | .ok (ev, cur') =>
      let s' := { s with cur := cur' }
      match ev with
      | .yielded config =>
        if aborted then .ok s'
        else pollingRun connOk aborted (applyConfigChange connOk config s') rest
      | .noChange => pollingRun connOk aborted s' rest
      | .swallowedError => pollingRun connOk aborted s' rest

/-! ## Request aggregation and routing (`src/request.ts`) -/

/-- An enumerated item as the aggregator touches it: its `name` (the
routing key it records), optionally a `uri` (resources), optionally a
`description` (the field the origin annotation is applied to). -/
structure Item where
  name : String
  uri : Option String := none
  description : Option String := none
deriving Repr, DecidableEq

/-- One field of a backend's result object: either an array of items or
some non-array value. -/
inductive ResField where
  | arrField (items : List Item)
  | nonArrayField
deriving Repr, DecidableEq

/-- A backend result object; `Object.values` enumerates the fields in
order. -/
abbrev ResObj := List (String × ResField)

/-- `prefix` of `src/utils.ts` applied to a string field:
`` `[${prefix}] ${value || ""}` ``. -/
def prefixString (p : String) (value : Option String) : String :=
  "[" ++ p ++ "] " ++ value.getD ""

/-- `prefix(p, item, "description")`: copy the item with its
description replaced by the prefixed value. -/
def prefixDescription (p : String) (item : Item) : Item :=
  { item with description := some (prefixString p item.description) }

/-- `${version?.name}` rendering used in log/error messages. -/
def versionName (client : Client) : String :=
  (client.serverInfo.map (fun i => i.1)).getD "undefined"

def versionVersion (client : Client) : String :=
  (client.serverInfo.map (fun i => i.2)).getD "undefined"

/-- The message `fail` builds for a wrapped backend failure (the cause
is an `Error`, so its message is appended). -/
def clientRequestMessage (client : Client) (method identifier : String)
    (cause : BackendError) : String :=
  "Request error with " ++ method ++ ":" ++ identifier ++ " to "
    ++ versionName client ++ " (" ++ versionVersion client ++ ")"
    ++ ": " ++ cause.message

/-- `clientRequest` of `src/request.ts`: forward the request to one
backend client (`resp` is the backend's outcome); an `McpError` with
code `MethodNotFound` or `RequestTimeout` degrades to the empty result
`{}`; every other failure is wrapped into a `ClientRequestError`
carrying the original cause and rethrown. -/
def clientRequest (client : Client) (method identifier : String)
    (resp : Except BackendError ResObj) : Except JsError ResObj :=
  match resp with
  | .ok result => .ok result
  | .error e =>
    match e with
    | .mcpError code _ =>
      if code = methodNotFoundCode then .ok []
      else if code = requestTimeoutCode then .ok []
      else .error (.clientRequestError (clientRequestMessage client method identifier e) e)
    | .otherError _ =>
      .error (.clientRequestError (clientRequestMessage client method identifier e) e)

/-- JS `a || b` on the two optional request parameters: the name wins
unless it is absent or the empty string. -/
def jsOrStr : Option String → Option String → Option String
  | some s, b => if s = "" then b else some s
  | none, b => b

/-- The routing lookup performed by `readRequestHandler`, where the
derived identifier may be `undefined`: the method map is consulted
first (`getClientFor`'s first throw), and an undefined identifier never
matches a stored string key. -/
def getClientForKey (pm : ProxyMap) (method : String) (identifier : Option String) :
    Except JsError Client :=
  match assocGet pm method with
  | none => .error (.genericError ("No clients registered for method " ++ method))
  | some methodMap =>
    match identifier with
    | none =>
      .error (.genericError ("Client not found for " ++ method ++ ":undefined"))
    | some i =>
      match assocGet methodMap i with
      | none =>
        .error (.genericError ("Client not found for " ++ method ++ ":" ++ i))
      | some client => .ok client

/-- `readRequestHandler` of `src/request.ts`: derive the identifier from
`request.params?.name || request.params?.uri`, resolve the owning client
in the routing table, and forward the call to it via `clientRequest`. -/
def readRequestHandler (pm : ProxyMap)
    (responses : Client → Except BackendError ResObj)
    (method : String) (pName pUri : Option String) : Except JsError ResObj :=
  let identifier := jsOrStr pName pUri
  match getClientForKey pm method identifier with
  | .error e => .error e
  | .ok client =>
    clientRequest client method (identifier.getD "undefined") (responses client)

/-- `const { name } = client.getServerVersion() ?? { name: "Unknown" }`. -/
def displayName (client : Client) : String :=
  (client.serverInfo.map (fun i => i.1)).getD "Unknown"

/-- One backend's item contribution inside `listRequestHandler`:
`Object.values(result).flatMap`, keeping items of array-valued fields
(annotated with the origin prefix) and dropping non-array fields. -/
def clientContribution (client : Client) (result : ResObj) : List Item :=
  result.flatMap (fun kv =>
    match kv.2 with
    | .arrField items =>
      items.map (prefixDescription ("[" ++ displayName client ++ "] "))
    | .nonArrayField => [])

/-- Processing of one settled backend outcome in `listRequestHandler`:
a rejected request contributes nothing; a fulfilled one contributes its
annotated items, recording a route `readMethod/item.name → client` for
each. -/
def listStep (readMethod : String)
    (outcome : Except JsError ResObj) (client : Client)
    (st : ProxyMap × List Item) : ProxyMap × List Item :=
  match outcome with
  | .error _ => st
  | .ok result =>
    let items := clientContribution client result
    let pm' := items.foldl
      (fun pm item => setClientFor pm readMethod item.name client) st.1
    (pm', st.2 ++ items)

/-- `listRequestHandler` of `src/request.ts`: broadcast the list request
to every registered client (`Promise.allSettled`, outcomes inspected in
array order), merge the per-client item contributions, and return them
under the method's result-field key.  Never throws: per-client failures
are absorbed by the settled-outcome inspection. -/
def listRequestHandler (clients : List Client)
    (responses : Client → Except BackendError ResObj)
    (pm : ProxyMap) (method : String) : ProxyMap × ResObj :=
  let key := getKeyFor method
  let readMethod := getReadMethodFor method
  let folded := clients.foldl
    (fun st client =>
      listStep readMethod (clientRequest client method key (responses client)) client st)
    (pm, [])
  (folded.1, [(key, .arrField folded.2)])

/-! ## Retry with exponential backoff (`src/utils.ts`) -/

/-- `RetryOptions` of `src/types.ts` with the defaults destructured at
the head of `retry`. -/
structure RetryOptions (α : Type) where
  initialDelay : Nat := 1000
  maxDelay : Nat := 30000
  maxRetries : Nat := 3
  backoffFactor : Nat := 2
  fallbackValue : Option α := none
deriving Repr

/-- Observable behaviour of one `retry` run: how many times the wrapped
function was invoked, the sequence of `delay` waits performed between
attempts, and the returned value (`none` for `undefined`). -/
structure RetryTrace (α : Type) where
  attempts : Nat
  delays : List Nat
  result : Option α
deriving Repr, DecidableEq

/-- The `while (attempt <= maxRetries)` loop of `retry`, with
`remaining = maxRetries - attempt` as the structural measure; `fn k` is
the outcome of the k-th invocation of the wrapped function.  A success
returns immediately; a failure on the last permitted attempt returns
the fallback value; otherwise the loop waits
`min(initialDelay * backoffFactor ^ attempt, maxDelay)` and retries. -/
def retryAux {ε α : Type} (fn : Nat → Except ε α) (opts : RetryOptions α) :
    (attempt remaining : Nat) → RetryTrace α
  | attempt, 0 =>
    match fn attempt with
    | .ok a => ⟨1, [], some a⟩
    | .error _ => ⟨1, [], opts.fallbackValue⟩
  | attempt, remaining + 1 =>
    match fn attempt with
    | .ok a => ⟨1, [], some a⟩
    | .error _ =>
      let time := min (opts.initialDelay * opts.backoffFactor ^ attempt) opts.maxDelay
      let rest := retryAux fn opts (attempt + 1) remaining
      ⟨rest.attempts + 1, time :: rest.delays, rest.result⟩

/-- `retry` of `src/utils.ts`.  The loop never rethrows: every outcome
is a returned value (possibly the fallback). -/
def retry {ε α : Type} (fn : Nat → Except ε α) (opts : RetryOptions α) :
    RetryTrace α :=
  retryAux fn opts 0 opts.maxRetries

theorem retryAux_attempts_le {ε α : Type} (fn : Nat → Except ε α)
    (opts : RetryOptions α) :
    ∀ (remaining attempt : Nat),
      (retryAux fn opts attempt remaining).attempts ≤ remaining + 1
  | 0, attempt => by
      unfold retryAux
      cases fn attempt <;> simp
  | remaining + 1, attempt => by
      unfold retryAux
      cases fn attempt <;> simp
      exact retryAux_attempts_le fn opts remaining (attempt + 1)

theorem retryAux_allFail {ε α : Type} (err : Nat → ε) (opts : RetryOptions α) :
    ∀ (remaining attempt : Nat),
      retryAux (fun k => (.error (err k) : Except ε α)) opts attempt remaining =
        ⟨remaining + 1,
         (List.range' attempt remaining).map
           (fun k => min (opts.initialDelay * opts.backoffFactor ^ k) opts.maxDelay),
         opts.fallbackValue⟩
  | 0, attempt => by
      unfold retryAux
      simp [List.range']
  | remaining + 1, attempt => by
      unfold retryAux
      simp [List.range', retryAux_allFail err opts remaining (attempt + 1)]

/-- C8: `retry` attempts the wrapped function at most `maxRetries + 1`
times; a permanently-failing function is attempted exactly
`maxRetries + 1` times with a wait of
`min(initialDelay * backoffFactor ^ k, maxDelay)` after the (k+1)-th
failed attempt, and the run returns the configured `fallbackValue`
(default `undefined`) instead of raising; in particular with
`initialDelay = 500`, `backoffFactor = 3`, `maxRetries = 2` a
permanently-failing function is attempted exactly 3 times with waits of
500 ms and 1500 ms before the fallback is returned. -/
theorem retry_backoff_schedule_and_fallback :
    (∀ (ε α : Type) (fn : Nat → Except ε α) (opts : RetryOptions α),
        (retry fn opts).attempts ≤ opts.maxRetries + 1)
    ∧ (∀ (ε α : Type) (err : Nat → ε) (opts : RetryOptions α),
        retry (fun k => (.error (err k) : Except ε α)) opts =
          ⟨opts.maxRetries + 1,
           (List.range opts.maxRetries).map
             (fun k => min (opts.initialDelay * opts.backoffFactor ^ k) opts.maxDelay),
           opts.fallbackValue⟩)
    ∧ retry (fun _ => (.error () : Except Unit Nat))
        { initialDelay := 500, backoffFactor := 3, maxRetries := 2 } =
        ⟨3, [500, 1500], none⟩ := by
  refine ⟨?_, ?_, ?_⟩
  · intro ε α fn opts
    exact retryAux_attempts_le fn opts opts.maxRetries 0
  · intro ε α err opts
    rw [retry, retryAux_allFail err opts opts.maxRetries 0, List.range_eq_range']
  · decide

/-! ## Change detection and the configuration generator -/

theorem Json.beq_refl : ∀ j : Json, Json.beq j j = true
  | .null => rfl
  | .bool _ => by simp [Json.beq]
  | .num _ => by simp [Json.beq]
  | .str _ => by simp [Json.beq]
  | .arr xs => by rw [Json.beq]; exact goList_refl xs
  | .obj fs => by rw [Json.beq]; exact goFields_refl fs
where
  goList_refl : ∀ xs : List Json, Json.beq.goList xs xs = true
    | [] => rfl
    | x :: xs => by
        rw [Json.beq.goList]
        simp [Json.beq_refl x, goList_refl xs]
  goFields_refl : ∀ fs : List (String × Json), Json.beq.goFields fs fs = true
    | [] => rfl
    | (_, v) :: fs => by
        rw [Json.beq.goFields]
        simp [Json.beq_refl v, goFields_refl fs]

/-- The spec's example pair: `{servers:{a:{args:["x","y"]}}}` and the
same document with the `args` array reversed. -/
def exampleConfigXY : Json :=
  .obj [("servers", .obj [("a", .obj [("args", .arr [.str "x", .str "y"])])])]

def exampleConfigYX : Json :=
  .obj [("servers", .obj [("a", .obj [("args", .arr [.str "y", .str "x"])])])]

/-- C6: configuration equality is serialized deep structural equality,
order-sensitive — the two configurations differing only in the order of
an `args` array are unequal — and one generator iteration yields a
fetched snapshot exactly when it is unequal, under this equality, to
the last emitted snapshot (an equal snapshot is discarded without
emission, a first fetch is always emitted). -/
theorem configuration_change_detection :
    areConfigurationsEqual exampleConfigXY exampleConfigYX = false
    ∧ (∀ prev newC, genStep (some prev) (.ok newC) =
        if areConfigurationsEqual prev newC then .ok (.noChange, some prev)
        else .ok (.yielded newC, some newC))
    ∧ (∀ newC, genStep none (.ok newC) = .ok (.yielded newC, some newC)) := by
  refine ⟨by decide, ?_, fun newC => rfl⟩
  intro prev newC
  by_cases h : areConfigurationsEqual prev newC <;> simp [genStep, h]

/-! ## Routing misses (`getClientFor`) -/

/-- C4 counterexample: a routing lookup for a never-recorded pair does
not fail with a distinct `RoutingNotFound` error class — it throws the
plain built-in generic `Error` (no routing-specific error class exists
in the code). -/
theorem routing_miss_generic_error_counterexample :
    getClientFor [] "tools/call" "calculator" =
      .error (.genericError "No clients registered for method tools/call")
    ∧ JsError.isGenericError
        (.genericError "No clients registered for method tools/call") = true := by
  exact ⟨rfl, rfl⟩

/-- C4 (amended): for every (method, identifier) pair with no recorded
route, route resolution fails with the plain generic `Error` whose
message cites the method — and, when the method has a map, the
identifier — and never returns a connection and never crashes. -/
theorem routing_miss_fails_cleanly (pm : ProxyMap) (m i : String)
    (h : (assocGet pm m).bind (fun mm => assocGet mm i) = none) :
    getClientFor pm m i =
        .error (.genericError ("No clients registered for method " ++ m))
      ∨ getClientFor pm m i =
        .error (.genericError ("Client not found for " ++ m ++ ":" ++ i)) := by
  cases hm : assocGet pm m with
  | none => exact Or.inl (by simp [getClientFor, hm])
  | some mm =>
    cases hi : assocGet mm i with
    | none => exact Or.inr (by simp [getClientFor, hm, hi])
    | some c => simp [hm, hi] at h

theorem routing_miss_fails_cleanly_witness :
    (assocGet ([] : ProxyMap) "tools/call").bind
        (fun mm => assocGet mm "calculator") = none
    ∧ (getClientFor [] "tools/call" "calculator" =
          .error (.genericError ("No clients registered for method " ++ "tools/call"))
        ∨ getClientFor [] "tools/call" "calculator" =
          .error (.genericError
            ("Client not found for " ++ "tools/call" ++ ":" ++ "calculator"))) :=
  ⟨rfl, routing_miss_fails_cleanly [] "tools/call" "calculator" rfl⟩

/-! ## No-op reconciliation of an unchanged configuration -/

/-- C5: when a polling cycle fetches a configuration equal (under the
structural equality) to the current one, the generator discards it and
the reconnect body never runs: zero connect and zero disconnect
operations are performed and the registry is left holding exactly the
same connection values — the whole system state is unchanged. -/
theorem reconcile_unchanged_config_noop
    (connOk : String → Bool) (aborted : Bool) (reg : Registry)
    (nextId connects disconnects : Nat) (C : Json) :
    pollingRun connOk aborted
        ⟨some C, reg, nextId, connects, disconnects⟩ [.ok C] =
      .ok ⟨some C, reg, nextId, connects, disconnects⟩
    ∧ genStep (some C) (.ok C) = .ok (.noChange, some C) := by
  constructor
  · simp [pollingRun, genStep, areConfigurationsEqual, Json.beq_refl C]
  · simp [genStep, areConfigurationsEqual, Json.beq_refl C]

/-! ## Fatality of authentication errors, softness of everything else -/

/-- Whether a fetch outcome is an HTTP 401 response. -/
def is401 : FetchEvent → Bool
  | .response status _ _ => status = 401
  | _ => false

theorem fetch_non401_no_auth (ev : FetchEvent) (h : is401 ev = false) (e : JsError)
    (hf : fetchConfiguration .validUrl ev = .error e) :
    e.isAuthenticationError = false := by
  cases ev with
  | abortTimeout => simp [fetchConfiguration] at hf
  | networkError => simp [fetchConfiguration] at hf
  | response status txt body =>
    have h401 : ¬status = 401 := by simpa [is401] using h
    cases hs : statusOk status with
    | false => simp [fetchConfiguration, hs, h401] at hf
    | true =>
      cases body with
      | unparsable =>
        simp [fetchConfiguration, hs] at hf
        simp [← hf, JsError.isAuthenticationError]
      | parsed j =>
        cases ht : jsTruthy (mcpServersField j) with
        | false =>
          simp [fetchConfiguration, hs, ht] at hf
          simp [← hf, JsError.isAuthenticationError]
        | true => simp [fetchConfiguration, hs, ht] at hf

theorem genStep_no_auth (cur : Option Json) (fetched : Except JsError Json)
    (h : ∀ e, fetched = .error e → e.isAuthenticationError = false) :
    ∃ out, genStep cur fetched = .ok out := by
  cases fetched with
  | ok c =>
    cases cur with
    | none => exact ⟨(.yielded c, some c), rfl⟩
    | some prev =>
      cases hc : areConfigurationsEqual prev c with
      | true => exact ⟨(.noChange, some prev), by simp [genStep, hc]⟩
      | false => exact ⟨(.yielded c, some c), by simp [genStep, hc]⟩
  | error e =>
    have he := h e rfl
    cases cur with
    | none => exact ⟨(.swallowedError, some defaultConfiguration), by simp [genStep, he]⟩
    | some prev => exact ⟨(.swallowedError, some prev), by simp [genStep, he]⟩

/-- As long as no fetch comes back 401, the polling loop runs every
cycle to completion and returns normally — parse failures, network
errors and configuration changes included. -/
theorem pollingRun_no401 (connOk : String → Bool) :
    ∀ (evs : List FetchEvent) (sys : Sys), (∀ ev ∈ evs, is401 ev = false) →
      ∃ sys', pollingRun connOk false sys
          (evs.map (fetchConfiguration .validUrl)) = .ok sys'
  | [], sys, _ => ⟨sys, rfl⟩
  | ev :: evs, sys, h => by
    have hev : is401 ev = false := h ev (List.mem_cons_self ev evs)
    have htail : ∀ e ∈ evs, is401 e = false := fun e he => h e (List.mem_cons_of_mem _ he)
    obtain ⟨⟨evt, cur'⟩, hg⟩ := genStep_no_auth sys.cur (fetchConfiguration .validUrl ev)
      (fun e hf => fetch_non401_no_auth ev hev e hf)
    cases evt with
    | yielded c =>
      obtain ⟨sys', hs⟩ :=
        pollingRun_no401 connOk evs (applyConfigChange connOk c { sys with cur := cur' }) htail
      exact ⟨sys', by simp [pollingRun, hg, hs]⟩
    | noChange =>
      obtain ⟨sys', hs⟩ := pollingRun_no401 connOk evs { sys with cur := cur' } htail
      exact ⟨sys', by simp [pollingRun, hg, hs]⟩
    | swallowedError =>
      obtain ⟨sys', hs⟩ := pollingRun_no401 connOk evs { sys with cur := cur' } htail
      exact ⟨sys', by simp [pollingRun, hg, hs]⟩

theorem pollingRun_auth_propagates (connOk : String → Bool)
    (rest : List FetchEvent) (txt : String) (body : BodyOutcome) :
    ∀ (pre : List FetchEvent) (sys : Sys), (∀ ev ∈ pre, is401 ev = false) →
      pollingRun connOk false sys
          ((pre ++ .response 401 txt body :: rest).map (fetchConfiguration .validUrl)) =
        .error (.authenticationError "Authentication failed")
  | [], sys, _ => by
    have hf : fetchConfiguration .validUrl (.response 401 txt body) =
        .error (.authenticationError "Authentication failed") := rfl
    simp [pollingRun, hf, genStep, JsError.isAuthenticationError]
  | ev :: pre, sys, h => by
    have hev : is401 ev = false := h ev (List.mem_cons_self ev pre)
    have htail : ∀ e ∈ pre, is401 e = false := fun e he => h e (List.mem_cons_of_mem _ he)
    obtain ⟨⟨evt, cur'⟩, hg⟩ := genStep_no_auth sys.cur (fetchConfiguration .validUrl ev)
      (fun e hf => fetch_non401_no_auth ev hev e hf)
    cases evt with
    | yielded c =>
      have hs := pollingRun_auth_propagates connOk rest txt body pre
        (applyConfigChange connOk c { sys with cur := cur' }) htail
      simpa [pollingRun, hg] using hs
    | noChange =>
      have hs := pollingRun_auth_propagates connOk rest txt body pre
        { sys with cur := cur' } htail
      simpa [pollingRun, hg] using hs
    | swallowedError =>
      have hs := pollingRun_auth_propagates connOk rest txt body pre
        { sys with cur := cur' } htail
      simpa [pollingRun, hg] using hs

/-- C2: an HTTP 401 configuration response always raises
`AuthenticationError`; the generator rethrows it on any cycle (first or
later) instead of swallowing it like other fetch errors; and the
polling loop propagates it out no matter how many non-401 cycles
preceded it. -/
theorem auth_fatality :
    (∀ txt body, fetchConfiguration .validUrl (.response 401 txt body) =
        .error (.authenticationError "Authentication failed"))
    ∧ (∀ cur m, genStep cur (.error (.authenticationError m)) =
        .error (.authenticationError m))
    ∧ (∀ (connOk : String → Bool) (sys : Sys) (pre rest : List FetchEvent)
        (txt : String) (body : BodyOutcome), (∀ ev ∈ pre, is401 ev = false) →
        pollingRun connOk false sys
            ((pre ++ .response 401 txt body :: rest).map
              (fetchConfiguration .validUrl)) =
          .error (.authenticationError "Authentication failed")) := by
  refine ⟨fun txt body => rfl, ?_, ?_⟩
  · intro cur m
    cases cur <;> simp [genStep, JsError.isAuthenticationError]
  · intro connOk sys pre rest txt body h
    exact pollingRun_auth_propagates connOk rest txt body pre sys h

theorem auth_fatality_witness :
    (∀ ev ∈ [FetchEvent.networkError], is401 ev = false)
    ∧ pollingRun (fun _ => true) false ⟨none, emptyRegistry, 0, 0, 0⟩
        (([FetchEvent.networkError] ++
            FetchEvent.response 401 "Unauthorized" .unparsable :: []).map
          (fetchConfiguration .validUrl)) =
      .error (.authenticationError "Authentication failed") :=
  ⟨by decide,
   auth_fatality.2.2 (fun _ => true) ⟨none, emptyRegistry, 0, 0, 0⟩
     [.networkError] [] "Unauthorized" .unparsable (by decide)⟩

/-! ## Parse failures: first fetch versus re-fetch -/

/-- C3 counterexample: a response body that fails to parse on the very
first fetch raises `ConfigurationError` inside `fetchConfiguration`,
but `generateConfiguration` swallows it like any other non-auth error:
the generator run completes without propagating any error and without
yielding a snapshot, so the caller awaiting the first configuration
observes no fatal `ConfigurationError` — contradicting the claimed
first-fetch fatality. -/
theorem first_fetch_parse_failure_not_fatal :
    fetchConfiguration .validUrl (.response 200 "OK" .unparsable) =
      .error (.configurationError "Failed to parse configuration")
    ∧ genRun none [fetchConfiguration .validUrl (.response 200 "OK" .unparsable)] =
      .ok ([.swallowedError], some defaultConfiguration) :=
  ⟨rfl, rfl⟩

/-- C3 (amended): a response body that fails to parse raises a
`ConfigurationError` inside `fetchConfiguration` on every fetch, but
`generateConfiguration` logs and swallows it on the first fetch exactly
as on subsequent periodic re-fetches — nothing is yielded (on a first
fetch the generator falls back to the default empty configuration as
its current snapshot) and the polling loop continues unterminated in
both cases. -/
theorem parse_failure_swallowed_first_and_refetch :
    (∀ txt, fetchConfiguration .validUrl (.response 200 txt .unparsable) =
        .error (.configurationError "Failed to parse configuration"))
    ∧ (∀ m, genStep none (.error (.configurationError m)) =
        .ok (.swallowedError, some defaultConfiguration))
    ∧ (∀ cur m, genStep (some cur) (.error (.configurationError m)) =
        .ok (.swallowedError, some cur))
    ∧ (∀ (connOk : String → Bool) (sys : Sys) (evs : List FetchEvent),
        (∀ ev ∈ evs, is401 ev = false) →
        ∃ sys', pollingRun connOk false sys
            (evs.map (fetchConfiguration .validUrl)) = .ok sys') := by
  refine ⟨fun txt => rfl, fun m => rfl, fun cur m => rfl, ?_⟩
  intro connOk sys evs h
  exact pollingRun_no401 connOk evs sys h

theorem parse_failure_swallowed_first_and_refetch_witness :
    (∀ ev ∈ [FetchEvent.response 200 "OK" .unparsable,
             FetchEvent.response 200 "OK" .unparsable], is401 ev = false)
    ∧ ∃ sys', pollingRun (fun _ => true) false ⟨none, emptyRegistry, 0, 0, 0⟩
        ([FetchEvent.response 200 "OK" .unparsable,
          FetchEvent.response 200 "OK" .unparsable].map
          (fetchConfiguration .validUrl)) = .ok sys' :=
  ⟨by decide,
   parse_failure_swallowed_first_and_refetch.2.2.2 (fun _ => true)
     ⟨none, emptyRegistry, 0, 0, 0⟩
     [.response 200 "OK" .unparsable, .response 200 "OK" .unparsable] (by decide)⟩

/-! ## Broadcast aggregation -/

/-- What one settled backend outcome contributes to the merged list
(nothing when the request rejected). -/
def settledContribution (client : Client) (outcome : Except JsError ResObj) :
    List Item :=
  match outcome with
  | .error _ => []
  | .ok result => clientContribution client result

theorem listFold_snd (readMethod : String) (f : Client → Except JsError ResObj) :
    ∀ (clients : List Client) (pm : ProxyMap) (acc : List Item),
      (clients.foldl (fun st c => listStep readMethod (f c) c st) (pm, acc)).2
        = acc ++ clients.flatMap (fun c => settledContribution c (f c))
  | [], pm, acc => by simp
  | c :: clients, pm, acc => by
    rw [show List.foldl (fun st c => listStep readMethod (f c) c st) (pm, acc)
          (c :: clients)
        = List.foldl (fun st c => listStep readMethod (f c) c st)
            (listStep readMethod (f c) c (pm, acc)) clients from rfl]
    cases hf : f c with
    | error e =>
      rw [show listStep readMethod (Except.error e : Except JsError ResObj) c
          (pm, acc) = (pm, acc) from rfl]
      rw [listFold_snd readMethod f clients pm acc]
      simp [settledContribution, hf]
    | ok r =>
      rw [show listStep readMethod (Except.ok r : Except JsError ResObj) c
          (pm, acc) =
          ((clientContribution c r).foldl
            (fun pm item => setClientFor pm readMethod item.name c) pm,
           acc ++ clientContribution c r) from rfl]
      rw [listFold_snd readMethod f clients _ _]
      simp [settledContribution, hf]

theorem listFold_fst (readMethod : String) (f : Client → Except JsError ResObj) :
    ∀ (clients : List Client) (pm : ProxyMap) (acc : List Item),
      (clients.foldl (fun st c => listStep readMethod (f c) c st) (pm, acc)).1
        = clients.foldl (fun pmAcc c =>
            (settledContribution c (f c)).foldl
              (fun pmAcc item => setClientFor pmAcc readMethod item.name c) pmAcc) pm
  | [], _, _ => rfl
  | c :: clients, pm, acc => by
    rw [show List.foldl (fun st c => listStep readMethod (f c) c st) (pm, acc)
          (c :: clients)
        = List.foldl (fun st c => listStep readMethod (f c) c st)
            (listStep readMethod (f c) c (pm, acc)) clients from rfl]
    cases hf : f c with
    | error e =>
      rw [show listStep readMethod (Except.error e : Except JsError ResObj) c
          (pm, acc) = (pm, acc) from rfl]
      rw [listFold_fst readMethod f clients pm acc]
      simp [settledContribution, hf]
    | ok r =>
      rw [show listStep readMethod (Except.ok r : Except JsError ResObj) c
          (pm, acc) =
          ((clientContribution c r).foldl
            (fun pm item => setClientFor pm readMethod item.name c) pm,
           acc ++ clientContribution c r) from rfl]
      rw [listFold_fst readMethod f clients _ _]
      simp [settledContribution, hf]

/-- Fixture: three backends for the spec's broadcast example. -/
def bc1 : Client := ⟨1, some ("s1", "1.0")⟩

def bc2 : Client := ⟨2, some ("s2", "1.0")⟩

def bc3 : Client := ⟨3, some ("s3", "1.0")⟩

/-- Fixture: backend 2 rejects every call; backends 1 and 3 each return
one tool. -/
def bcResponses : Client → Except BackendError ResObj := fun c =>
  if c.id = 2 then .error (.otherError "backend 2 always rejects")
  else if c.id = 1 then .ok [("tools", .arrField [⟨"tool1", none, some "a tool"⟩])]
  else .ok [("tools", .arrField [⟨"tool3", none, some "a tool"⟩])]

/-- C1: a broadcast list call never raises (it is a total function of
the settled per-backend outcomes) and returns, under the method's
result-field key, exactly the concatenation of the per-backend
contributions, where every backend whose request rejected contributes
zero items and cannot affect the others; in the spec's instance — three
backends of which backend 2 rejects every call — the merged result holds
exactly the items of backends 1 and 3. -/
theorem broadcast_partial_failure_isolation :
    (∀ (clients : List Client) (responses : Client → Except BackendError ResObj)
       (pm : ProxyMap) (method : String),
       (listRequestHandler clients responses pm method).2 =
         [(getKeyFor method,
           .arrField (clients.flatMap (fun c =>
             settledContribution c
               (clientRequest c method (getKeyFor method) (responses c)))))])
    ∧ (listRequestHandler [bc1, bc2, bc3] bcResponses [] "tools/list").2 =
        [("tools", .arrField
          [⟨"tool1", none, some "[[s1] ] a tool"⟩,
           ⟨"tool3", none, some "[[s3] ] a tool"⟩])] := by
  constructor
  · intro clients responses pm method
    rw [listRequestHandler]
    rw [listFold_snd (getReadMethodFor method)
      (fun c => clientRequest c method (getKeyFor method) (responses c)) clients pm []]
    rfl
  · decide

/-! ## Route-path failure handling -/

/-- C7: a capability-not-supported (`MethodNotFound`) or timeout
(`RequestTimeout`) error from the owning backend degrades to the empty
successful result `{}`; every other backend failure is wrapped into a
`ClientRequestError` carrying the original cause and rethrown; and
`readRequestHandler` forwards the resolved backend's outcome — wrapped
error included — to the outward caller. -/
theorem route_call_failure_handling :
    (∀ (client : Client) (m i msg : String),
        clientRequest client m i (.error (.mcpError methodNotFoundCode msg)) = .ok [])
    ∧ (∀ (client : Client) (m i msg : String),
        clientRequest client m i (.error (.mcpError requestTimeoutCode msg)) = .ok [])
    ∧ (∀ (client : Client) (m i : String) (code : Int) (msg : String),
        code ≠ methodNotFoundCode → code ≠ requestTimeoutCode →
        clientRequest client m i (.error (.mcpError code msg)) =
          .error (.clientRequestError
            (clientRequestMessage client m i (.mcpError code msg))
            (.mcpError code msg)))
    ∧ (∀ (client : Client) (m i msg : String),
        clientRequest client m i (.error (.otherError msg)) =
          .error (.clientRequestError
            (clientRequestMessage client m i (.otherError msg))
            (.otherError msg)))
    ∧ (∀ (pm : ProxyMap) (responses : Client → Except BackendError ResObj)
        (m : String) (pName pUri : Option String) (client : Client),
        getClientForKey pm m (jsOrStr pName pUri) = .ok client →
        readRequestHandler pm responses m pName pUri =
          clientRequest client m ((jsOrStr pName pUri).getD "undefined")
            (responses client)) := by
  refine ⟨fun client m i msg => rfl, fun client m i msg => rfl, ?_,
    fun client m i msg => rfl, ?_⟩
  · intro client m i code msg h1 h2
    simp [clientRequest, h1, h2]
  · intro pm responses m pName pUri client h
    simp [readRequestHandler, h]

def wClient : Client := ⟨7, some ("w", "1.0")⟩

def wPm : ProxyMap := [("tools/call", [("calc", wClient)])]

def wResponses : Client → Except BackendError ResObj := fun _ => .ok []

theorem route_call_failure_handling_witness :
    ((-32603 : Int) ≠ methodNotFoundCode)
    ∧ ((-32603 : Int) ≠ requestTimeoutCode)
    ∧ clientRequest wClient "tools/call" "calc"
        (.error (.mcpError (-32603) "boom")) =
        .error (.clientRequestError
          (clientRequestMessage wClient "tools/call" "calc" (.mcpError (-32603) "boom"))
          (.mcpError (-32603) "boom"))
    ∧ getClientForKey wPm "tools/call" (jsOrStr (some "calc") none) = .ok wClient
    ∧ readRequestHandler wPm wResponses "tools/call" (some "calc") none =
        clientRequest wClient "tools/call"
          ((jsOrStr (some "calc") none).getD "undefined") (wResponses wClient) :=
  ⟨by decide, by decide,
   route_call_failure_handling.2.2.1 wClient "tools/call" "calc" (-32603) "boom"
     (by decide) (by decide),
   rfl,
   route_call_failure_handling.2.2.2.2 wPm wResponses "tools/call" (some "calc")
     none wClient rfl⟩

/-! ## Routes are keyed by item name, lookups by name-then-uri -/

def resClient : Client := ⟨5, some ("res", "1.0")⟩

/-- A resource whose `uri` differs from its `name`. -/
def resItem : Item := ⟨"nm", some "file:///u", none⟩

def resResponses : Client → Except BackendError ResObj := fun _ =>
  .ok [("resources", .arrField [resItem])]

/-- The routing table after broadcasting `resources/list` to the single
backend above. -/
def resPm : ProxyMap := (listRequestHandler [resClient] resResponses [] "resources/list").1

/-- C10: every route recorded during a broadcast enumeration is keyed by
the enumerated item's `name` field — for every operation category,
resource listing included, never by `uri` — while a read-style lookup
uses the request's `name` parameter and falls back to `uri` only when
`name` is absent (or empty); consequently a resource whose `uri`
differs from its `name`, addressed by `uri` alone, resolves no recorded
route, while addressing it by `name` succeeds. -/
theorem broadcast_routes_keyed_by_item_name :
    (∀ (clients : List Client) (responses : Client → Except BackendError ResObj)
       (pm : ProxyMap) (method : String),
       (listRequestHandler clients responses pm method).1 =
         clients.foldl (fun pmAcc c =>
           (settledContribution c
             (clientRequest c method (getKeyFor method) (responses c))).foldl
             (fun pmAcc item =>
               setClientFor pmAcc (getReadMethodFor method) item.name c) pmAcc) pm)
    ∧ (∀ (u : Option String), jsOrStr none u = u)
    ∧ (∀ (n : String) (u : Option String), n ≠ "" → jsOrStr (some n) u = some n)
    ∧ resPm = [("resources/read", [("nm", resClient)])]
    ∧ readRequestHandler resPm resResponses "resources/read" none (some "file:///u") =
        .error (.genericError "Client not found for resources/read:file:///u")
    ∧ readRequestHandler resPm resResponses "resources/read" (some "nm") none =
        .ok [("resources", .arrField [resItem])] := by
  refine ⟨?_, fun u => rfl, ?_, by decide, rfl, rfl⟩
  · intro clients responses pm method
    rw [listRequestHandler]
    rw [listFold_fst (getReadMethodFor method)
      (fun c => clientRequest c method (getKeyFor method) (responses c)) clients pm []]
  · intro n u h
    simp [jsOrStr, h]

theorem broadcast_routes_keyed_by_item_name_witness :
    ("nm" : String) ≠ "" ∧ jsOrStr (some "nm") (some "file:///u") = some "nm" :=
  ⟨by decide, broadcast_routes_keyed_by_item_name.2.2.1 "nm" (some "file:///u") (by decide)⟩

/-! ## The routing-table / primary-table relationship

The registry exposes five mutating operations; sequences of them are
modelled as lists of `RegOp`. -/

inductive RegOp where
  | set (name : String) (state : ClientState)
  | remove (name : String)
  | clear
  | record (method identifier : String) (client : Client)
  | removeMappings (client : Client)
deriving Repr, DecidableEq

def applyOp (r : Registry) : RegOp → Registry
  | .set name state => setClientState r name state
  | .remove name => removeClientState r name
  | .clear => clearAllClientStates r
  | .record method identifier client =>
    { r with proxy := setClientFor r.proxy method identifier client }
  | .removeMappings client => r.removeMappings client

def applyOps (r : Registry) (ops : List RegOp) : Registry :=
  ops.foldl applyOp r

/-- The client is (`===`) the client of some primary-table entry. -/
def clientPresentB (r : Registry) (c : Client) : Bool :=
  r.states.any (fun kv => kv.2.client == c)

/-- Some routing-table entry references (`===`) the client. -/
def clientRoutedB (r : Registry) (c : Client) : Bool :=
  r.proxy.any (fun kv => kv.2.any (fun e => e.2 == c))

/-- The invariant claimed in the spec: every routing-table entry
references a client currently present in the primary table. -/
def routeInvB (r : Registry) : Bool :=
  r.proxy.all (fun kv => kv.2.all (fun e => clientPresentB r e.2))

/-- The discipline under which the invariant is actually preserved:
routes are recorded only for present clients, a `set` that replaces an
existing entry keeps its client or replaces an unrouted one, and a
`remove` only tears down a client whose route mappings are gone. -/
def safeStepB (r : Registry) : RegOp → Bool
  | .set name state =>
    match assocGet r.states name with
    | none => true
    | some old => old.client == state.client || !clientRoutedB r old.client
  | .remove name =>
    match assocGet r.states name with
    | none => true
    | some old => !clientRoutedB r old.client
  | .clear => true
  | .record _ _ client => clientPresentB r client
  | .removeMappings _ => true

def safeRunB : Registry → List RegOp → Bool
  | _, [] => true
  | r, op :: ops => safeStepB r op && safeRunB (applyOp r op) ops

theorem mem_of_mem_assocSet {β : Type} :
    ∀ (l : List (String × β)) (k : String) (v : β) (x : String × β),
      x ∈ assocSet l k v → x ∈ l ∨ x = (k, v)
  | [], k, v, x, h => by
    simp [assocSet] at h
    exact Or.inr h
  | (k', v') :: rest, k, v, x, h => by
    by_cases hk : k' = k
    · rw [assocSet, if_pos hk] at h
      rcases List.mem_cons.mp h with h | h
      · exact Or.inr h
      · exact Or.inl (List.mem_cons_of_mem _ h)
    · rw [assocSet, if_neg hk] at h
      rcases List.mem_cons.mp h with h | h
      · exact Or.inl (h ▸ List.mem_cons_self _ _)
      · rcases mem_of_mem_assocSet rest k v x h with h | h
        · exact Or.inl (List.mem_cons_of_mem _ h)
        · exact Or.inr h

theorem mem_assocSet_of_mem {β : Type} :
    ∀ (l : List (String × β)) (k : String) (v : β) (x : String × β),
      x ∈ l → x ∈ assocSet l k v ∨ (x.1 = k ∧ assocGet l k = some x.2)
  | (k', v') :: rest, k, v, x, h => by
    by_cases hk : k' = k
    · rcases List.mem_cons.mp h with h | h
      · refine Or.inr ⟨by rw [h, hk], ?_⟩
        rw [assocGet, if_pos hk, h]
      · rw [assocSet, if_pos hk]
        exact Or.inl (List.mem_cons_of_mem _ h)
    · rcases List.mem_cons.mp h with h | h
      · rw [assocSet, if_neg hk]
        exact Or.inl (h ▸ List.mem_cons_self _ _)
      · rcases mem_assocSet_of_mem rest k v x h with h2 | h2
        · rw [assocSet, if_neg hk]
          exact Or.inl (List.mem_cons_of_mem _ h2)
        · refine Or.inr ⟨h2.1, ?_⟩
          rw [assocGet, if_neg hk]
          exact h2.2

theorem self_mem_assocSet {β : Type} :
    ∀ (l : List (String × β)) (k : String) (v : β), (k, v) ∈ assocSet l k v
  | [], k, v => List.mem_cons_self _ _
  | (k', v') :: rest, k, v => by
    by_cases hk : k' = k
    · rw [assocSet, if_pos hk]
      exact List.mem_cons_self _ _
    · rw [assocSet, if_neg hk]
      exact List.mem_cons_of_mem _ (self_mem_assocSet rest k v)

theorem mem_assocDelete_of_mem {β : Type} :
    ∀ (l : List (String × β)) (k : String) (x : String × β),
      x ∈ l → x ∈ assocDelete l k ∨ (x.1 = k ∧ assocGet l k = some x.2)
  | (k', v') :: rest, k, x, h => by
    by_cases hk : k' = k
    · rcases List.mem_cons.mp h with h | h
      · refine Or.inr ⟨by rw [h, hk], ?_⟩
        rw [assocGet, if_pos hk, h]
      · rw [assocDelete, if_pos hk]
        exact Or.inl h
    · rcases List.mem_cons.mp h with h | h
      · rw [assocDelete, if_neg hk]
        exact Or.inl (h ▸ List.mem_cons_self _ _)
      · rcases mem_assocDelete_of_mem rest k x h with h2 | h2
        · rw [assocDelete, if_neg hk]
          exact Or.inl (List.mem_cons_of_mem _ h2)
        · refine Or.inr ⟨h2.1, ?_⟩
          rw [assocGet, if_neg hk]
          exact h2.2

theorem assocGet_mem {β : Type} :
    ∀ (l : List (String × β)) (k : String) (v : β),
      assocGet l k = some v → (k, v) ∈ l
  | (k', v') :: rest, k, v, h => by
    by_cases hk : k' = k
    · rw [assocGet, if_pos hk] at h
      have : v' = v := by injection h
      rw [← hk, ← this]
      exact List.mem_cons_self _ _
    · rw [assocGet, if_neg hk] at h
      exact List.mem_cons_of_mem _ (assocGet_mem rest k v h)

theorem routeInv_applyOp (r : Registry) (op : RegOp)
    (hinv : routeInvB r = true) (hsafe : safeStepB r op = true) :
    routeInvB (applyOp r op) = true := by
  have hinv' : ∀ kv ∈ r.proxy, ∀ e ∈ kv.2, clientPresentB r e.2 = true := by
    simpa [routeInvB, List.all_eq_true] using hinv
  cases op with
  | clear => rfl
  | set name state =>
    have hsafe' : ∀ old : ClientState, assocGet r.states name = some old →
        old.client = state.client ∨ clientRoutedB r old.client = false := by
      intro old hold
      simp only [safeStepB] at hsafe
      rw [hold] at hsafe
      simpa using hsafe
    rw [show applyOp r (.set name state)
        = ⟨assocSet r.states name state, r.proxy⟩ from rfl]
    rw [routeInvB, List.all_eq_true]
    intro kv hkv
    rw [List.all_eq_true]
    intro e he
    have hpres := hinv' kv hkv e he
    rw [clientPresentB, List.any_eq_true] at hpres
    obtain ⟨kv0, hkv0, hc0⟩ := hpres
    have hc0' : kv0.2.client = e.2 := by simpa using hc0
    rcases mem_assocSet_of_mem r.states name state kv0 hkv0 with hmem | ⟨_, hget⟩
    · rw [clientPresentB, List.any_eq_true]
      exact ⟨kv0, hmem, by simpa using hc0'⟩
    · rcases hsafe' kv0.2 hget with heq | hnr
      · rw [clientPresentB, List.any_eq_true]
        refine ⟨(name, state), self_mem_assocSet _ _ _, ?_⟩
        simp [← hc0', ← heq]
      · exfalso
        have hroute : clientRoutedB r kv0.2.client = true := by
          rw [clientRoutedB, List.any_eq_true]
          refine ⟨kv, hkv, ?_⟩
          rw [List.any_eq_true]
          exact ⟨e, he, by simp [hc0']⟩
        rw [hnr] at hroute
        exact Bool.false_ne_true hroute
  | remove name =>
    have hsafe' : ∀ old : ClientState, assocGet r.states name = some old →
        clientRoutedB r old.client = false := by
      intro old hold
      simp only [safeStepB] at hsafe
      rw [hold] at hsafe
      simpa using hsafe
    rw [show applyOp r (.remove name)
        = ⟨assocDelete r.states name, r.proxy⟩ from rfl]
    rw [routeInvB, List.all_eq_true]
    intro kv hkv
    rw [List.all_eq_true]
    intro e he
    have hpres := hinv' kv hkv e he
    rw [clientPresentB, List.any_eq_true] at hpres
    obtain ⟨kv0, hkv0, hc0⟩ := hpres
    have hc0' : kv0.2.client = e.2 := by simpa using hc0
    rcases mem_assocDelete_of_mem r.states name kv0 hkv0 with hmem | ⟨_, hget⟩
    · rw [clientPresentB, List.any_eq_true]
      exact ⟨kv0, hmem, by simpa using hc0'⟩
    · exfalso
      have hroute : clientRoutedB r kv0.2.client = true := by
        rw [clientRoutedB, List.any_eq_true]
        refine ⟨kv, hkv, ?_⟩
        rw [List.any_eq_true]
        exact ⟨e, he, by simp [hc0']⟩
      rw [hsafe' kv0.2 hget] at hroute
      exact Bool.false_ne_true hroute
  | record method identifier client =>
    have hpc : clientPresentB r client = true := by simpa [safeStepB] using hsafe
    rw [show applyOp r (.record method identifier client)
        = ⟨r.states, setClientFor r.proxy method identifier client⟩ from rfl]
    rw [routeInvB, List.all_eq_true]
    intro kv hkv
    rw [List.all_eq_true]
    intro e he
    simp only [setClientFor] at hkv
    rcases mem_of_mem_assocSet r.proxy method _ kv hkv with hmem | hkveq
    · exact hinv' kv hmem e he
    · rw [hkveq] at he
      rcases mem_of_mem_assocSet _ identifier client e he with hmem2 | heeq

      · cases hm : assocGet r.proxy method with
        | none => rw [hm] at hmem2; simp at hmem2
        | some mm =>
          rw [hm] at hmem2
          exact hinv' (method, mm) (assocGet_mem r.proxy method mm hm) e hmem2
      · rw [heeq]
        exact hpc
  | removeMappings client =>
    rw [show applyOp r (.removeMappings client)
        = ⟨r.states, removeClientMappings r.proxy client⟩ from rfl]
    rw [routeInvB, List.all_eq_true]
    intro kv hkv
    rw [List.all_eq_true]
    intro e he
    simp only [removeClientMappings] at hkv
    obtain ⟨kv0, hkv0, hkv0eq⟩ := List.mem_map.mp hkv
    have he0 : e ∈ kv0.2 := by
      rw [← hkv0eq] at he
      exact (List.mem_filter.mp he).1
    exact hinv' kv0 hkv0 e he0

theorem routeInv_applyOps :
    ∀ (ops : List RegOp) (r : Registry), routeInvB r = true →
      safeRunB r ops = true → routeInvB (applyOps r ops) = true
  | [], _, hinv, _ => hinv
  | op :: ops, r, hinv, hsafe => by
    obtain ⟨h1, h2⟩ : safeStepB r op = true ∧ safeRunB (applyOp r op) ops = true := by
      simpa [safeRunB] using hsafe
    exact routeInv_applyOps ops (applyOp r op) (routeInv_applyOp r op hinv h1) h2

/-- The torn-down backend of the counterexample. -/
def staleClient : Client := ⟨0, none⟩

def staleState : ClientState := ⟨"a", staleClient, some 0⟩

def overwritingClient : Client := ⟨1, none⟩

def overwritingState : ClientState := ⟨"a", overwritingClient, some 1⟩

/-- C9 counterexample: after `setClientState`, a recorded route and a
bare `removeClientState`, the routing table still holds an entry for a
client absent from the primary table, and `getClientFor` silently
returns that stale handle instead of erroring; a `setClientState`
overwriting a routed entry with a different client dangles likewise. -/
theorem routing_table_stale_route_counterexample :
    clientRoutedB (applyOps emptyRegistry
        [.set "a" staleState, .record "tools/call" "x" staleClient, .remove "a"])
      staleClient = true
    ∧ clientPresentB (applyOps emptyRegistry
        [.set "a" staleState, .record "tools/call" "x" staleClient, .remove "a"])
      staleClient = false
    ∧ routeInvB (applyOps emptyRegistry
        [.set "a" staleState, .record "tools/call" "x" staleClient, .remove "a"]) = false
    ∧ getClientFor (applyOps emptyRegistry
        [.set "a" staleState, .record "tools/call" "x" staleClient, .remove "a"]).proxy
        "tools/call" "x" = .ok staleClient
    ∧ routeInvB (applyOps emptyRegistry
        [.set "a" staleState, .record "tools/call" "x" staleClient,
         .set "a" overwritingState]) = false := by
  refine ⟨by decide, by decide, by decide, rfl, by decide⟩

/-- C9 (amended): the invariant — every routing-table entry references a
client currently present in the primary table — holds after every
sequence of registry operations in which each recorded route targets a
then-present client, each `setClientState` that replaces an existing
entry keeps its client or replaces an unrouted one, and each
`removeClientState` targets a client with no remaining route mappings
(e.g. after `removeClientMappings`, or with the tables cleared);
a bare `removeClientState` instead leaves a dangling routing entry
whose lookup silently returns the stale handle. -/
theorem routing_table_invariant_under_discipline
    (r : Registry) (ops : List RegOp)
    (hinv : routeInvB r = true) (hsafe : safeRunB r ops = true) :
    routeInvB (applyOps r ops) = true :=
  routeInv_applyOps ops r hinv hsafe

theorem routing_table_invariant_under_discipline_witness :
    routeInvB emptyRegistry = true
    ∧ safeRunB emptyRegistry
        [.set "a" staleState, .record "tools/call" "x" staleClient,
         .removeMappings staleClient, .remove "a"] = true
    ∧ routeInvB (applyOps emptyRegistry
        [.set "a" staleState, .record "tools/call" "x" staleClient,
         .removeMappings staleClient, .remove "a"]) = true :=
  ⟨rfl, by decide,
   routing_table_invariant_under_discipline emptyRegistry
     [.set "a" staleState, .record "tools/call" "x" staleClient,
      .removeMappings staleClient, .remove "a"] rfl (by decide)⟩

end MCPProxy
